import Mathlib

/-!
Verification of the CSV-backed personal finance ledger (`src/main.py`).

The development shallowly embeds the ledger component:
* Python strings are modelled as `List Char` (`Str`);
* `datetime.date` values are `Date` records ordered lexicographically by
  (year, month, day), exactly the comparison Python uses;
* a CSV file is `Option (List Line)`: `none` when the file is absent, and a
  line is either the canonical header written by `pd.DataFrame(columns).to_csv`
  or a data row written by `csv.DictWriter.writerow`;
* numeric cells (`amount`) are rationals: Python's float-to-text round trip is
  exact, so the cell is carried as its value; `category` and `description`
  cells are written as raw text, and on read `pd.read_csv` coerces the
  NA-marker texts (empty cell, `NA`, `null`, ...) to NaN, modelled by
  `readCell : Str → Option Str` over the default `na_values` list;
* the strict `%d.%m.%Y` parse performed by `pd.to_datetime(..., format=...)`
  is implemented character by character (`parseDate`): `%d` takes one or two
  digits or a space-padded single digit, `%m` one or two digits, `%Y` exactly
  four digits, the components must form a real calendar date with year at
  least 1, and the resulting day must fit the datetime64[ns] range
  (1677-09-22 through 2262-04-11 for a midnight stamp), else
  `OutOfBoundsDatetime`; a NaN date cell becomes NaT without error and the
  range mask later drops that row silently;
* `strftime` on the same format is `formatDate`;
* the column lookup `df["date"]` succeeds precisely when some cell of the
  first line (which `pd.read_csv` consumes as the header) is the literal text
  `date`; the amount cell is a float's text and can never be;
* fallible operations return `Except ReadError`, one error constructor per
  exception the Python code can raise on that path.
-/

namespace MoneyTracker

/-- Python strings, modelled as lists of characters. -/
abbrev Str := List Char

/-- A calendar date as carried by `datetime.date`: day, month, year. -/
structure Date where
  day : Nat
  month : Nat
  year : Nat
deriving DecidableEq

/-- Python's `datetime.date`/`datetime.datetime` order is lexicographic on
(year, month, day); `dateLe a b` models `a <= b`. -/
def dateLe (a b : Date) : Bool :=
  decide (a.year < b.year ∨ (a.year = b.year ∧
    (a.month < b.month ∨ (a.month = b.month ∧ a.day ≤ b.day))))

/-- Strict version of `dateLe`, modelling `a < b` on `datetime.date`. -/
def dateLt (a b : Date) : Bool :=
  decide (a.year < b.year ∨ (a.year = b.year ∧
    (a.month < b.month ∨ (a.month = b.month ∧ a.day < b.day))))

/-- Leap-year rule of the proleptic Gregorian calendar used by `datetime`. -/
def isLeap (y : Nat) : Bool :=
  decide ((y % 4 = 0 ∧ ¬ y % 100 = 0) ∨ y % 400 = 0)

/-- Number of days of month `m` in year `y`, as `datetime`/`strptime` accept. -/
def daysInMonth (m y : Nat) : Nat :=
  if m = 2 then (if isLeap y then 29 else 28)
  else if m = 4 ∨ m = 6 ∨ m = 9 ∨ m = 11 then 30
  else 31

/-- A `Date` the UI's date picker can produce: a real calendar date with a
four-digit year, so that `strftime("%d.%m.%Y")` emits it in canonical form. -/
def Date.Valid (d : Date) : Prop :=
  1 ≤ d.month ∧ d.month ≤ 12 ∧ 1 ≤ d.day ∧ d.day ≤ daysInMonth d.month d.year ∧
    1000 ≤ d.year ∧ d.year ≤ 9999

instance (d : Date) : Decidable d.Valid := by
  unfold Date.Valid
  infer_instance

/-- The character for a decimal digit value. -/
def digitChar (n : Nat) : Char := Char.ofNat (48 + n)

/-- Little-endian decimal digits of a number, recursing on explicit fuel so
that the kernel can evaluate it on concrete inputs. -/
def digitsRevAux : Nat → Nat → List Nat
  | 0, _ => []
  | _ + 1, 0 => []
  | fuel + 1, n + 1 => (n + 1) % 10 :: digitsRevAux fuel ((n + 1) / 10)

theorem digitsRevAux_eq (fuel n : Nat) (h : n ≤ fuel) :
    digitsRevAux fuel n = Nat.digits 10 n := by
  induction fuel generalizing n with
  | zero =>
    have hn : n = 0 := by omega
    subst hn
    simp [digitsRevAux]
  | succ fuel ih =>
    cases n with
    | zero => simp [digitsRevAux]
    | succ m =>
      have hdiv : (m + 1) / 10 ≤ fuel := by
        have := Nat.div_lt_self (Nat.succ_pos m) (by norm_num : 1 < 10)
        omega
      rw [digitsRevAux, ih ((m + 1) / 10) hdiv,
        Nat.digits_def' (by norm_num : (1 : ℕ) < 10) (Nat.succ_pos m)]

/-- Decimal rendering of a natural number, as Python's `str`/`"%d"` do. -/
def renderNat (n : Nat) : Str :=
  if n = 0 then ['0'] else ((digitsRevAux n n).map digitChar).reverse

theorem renderNat_eq_digits (n : Nat) :
    renderNat n = if n = 0 then ['0'] else ((Nat.digits 10 n).map digitChar).reverse := by
  unfold renderNat
  rw [digitsRevAux_eq n n le_rfl]

/-- Whether a character is a decimal digit. -/
def isDigit (c : Char) : Bool := decide (48 ≤ c.toNat ∧ c.toNat ≤ 57)

/-- Value of a decimal digit character. -/
def digitVal (c : Char) : Nat := c.toNat - 48

/-- Decimal value of a digit string (callers check `isDigit` first). -/
def parseNat (s : Str) : Nat := s.foldl (fun a c => 10 * a + digitVal c) 0

theorem digitVal_digitChar {k : Nat} (hk : k < 10) : digitVal (digitChar k) = k := by
  interval_cases k <;> decide

theorem isDigit_digitChar {k : Nat} (hk : k < 10) : isDigit (digitChar k) = true := by
  interval_cases k <;> decide

theorem isDigit_ne_dot {c : Char} (h : isDigit c = true) : c ≠ '.' := by
  intro hc
  subst hc
  simp [isDigit] at h

theorem parseNat_foldl (l : List Nat) (hl : ∀ x ∈ l, x < 10) (a : Nat) :
    List.foldl (fun acc c => 10 * acc + digitVal c) a ((l.map digitChar).reverse)
      = a * 10 ^ l.length + Nat.ofDigits 10 l := by
  induction l generalizing a with
  | nil => simp [Nat.ofDigits]
  | cons d t ih =>
    have hd : d < 10 := hl d (by simp)
    have ht : ∀ x ∈ t, x < 10 := fun x hx => hl x (by simp [hx])
    simp only [List.map_cons, List.reverse_cons, List.foldl_append, List.foldl_cons,
      List.foldl_nil]
    rw [ih ht a, digitVal_digitChar hd, Nat.ofDigits_cons]
    simp only [List.length_cons, pow_succ]
    ring

theorem parseNat_renderNat (n : Nat) : parseNat (renderNat n) = n := by
  by_cases h : n = 0
  · subst h
    decide
  · rw [renderNat_eq_digits]
    unfold parseNat
    rw [if_neg h]
    rw [parseNat_foldl (Nat.digits 10 n) (fun x hx => Nat.digits_lt_base (by norm_num) hx) 0]
    simp [Nat.ofDigits_digits]

theorem renderNat_ne_nil (n : Nat) : renderNat n ≠ [] := by
  rw [renderNat_eq_digits]
  by_cases h : n = 0
  · simp [h]
  · rw [if_neg h]
    simp [Nat.digits_ne_nil_iff_ne_zero, h]

theorem renderNat_all_digits (n : Nat) : ∀ c ∈ renderNat n, isDigit c = true := by
  intro c hc
  rw [renderNat_eq_digits] at hc
  by_cases h : n = 0
  · rw [if_pos h] at hc
    simp at hc
    subst hc
    decide
  · rw [if_neg h] at hc
    simp only [List.mem_reverse, List.mem_map] at hc
    obtain ⟨x, hx, rfl⟩ := hc
    exact isDigit_digitChar (Nat.digits_lt_base (by norm_num) hx)

theorem renderNat_length_le {n k : Nat} (hn : n < 10 ^ k) (hk : 1 ≤ k) :
    (renderNat n).length ≤ k := by
  rw [renderNat_eq_digits]
  by_cases h : n = 0
  · simpa [h] using hk
  · rw [if_neg h]
    simp only [List.length_reverse, List.length_map]
    rw [Nat.digits_len 10 n (by norm_num) h]
    have hlog : Nat.log 10 n < k := (Nat.lt_pow_iff_log_lt (by norm_num) h).mp hn
    omega

theorem renderNat_length_four {n : Nat} (h1 : 1000 ≤ n) (h2 : n ≤ 9999) :
    (renderNat n).length = 4 := by
  have hn : n ≠ 0 := by omega
  rw [renderNat_eq_digits, if_neg hn]
  simp only [List.length_reverse, List.length_map]
  rw [Nat.digits_len 10 n (by norm_num) hn]
  have hlog1 : Nat.log 10 n < 4 := (Nat.lt_pow_iff_log_lt (by norm_num) hn).mp (by omega)
  have hlog2 : 3 ≤ Nat.log 10 n := (Nat.pow_le_iff_le_log (by norm_num) hn).mp (by omega)
  omega

/-- Zero-padded two-digit rendering, as `strftime` emits for `%d` and `%m`. -/
def pad2 (n : Nat) : Str :=
  if n < 10 then '0' :: renderNat n else renderNat n

/-- The text `date.strftime("%d.%m.%Y")` produces for a date. -/
def formatDate (d : Date) : Str :=
  pad2 d.day ++ '.' :: (pad2 d.month ++ '.' :: renderNat d.year)

/-- Decomposition of a string at the dots of the `%d.%m.%Y` pattern. -/
def splitDots : Str → List Str
  | [] => [[]]
  | c :: rest =>
    if c = '.' then [] :: splitDots rest
    else
      match splitDots rest with
      | [] => [[c]]
      | p :: ps => (c :: p) :: ps

/-- A plain digit field: nonempty, all digits, bounded width. -/
def okNumField (s : Str) (maxLen : Nat) : Bool :=
  decide (s ≠ [] ∧ s.length ≤ maxLen ∧ ∀ c ∈ s, isDigit c = true)

/-- The `%d` field: one or two digits, or - as the strptime pattern also
allows - a single space followed by a nonzero digit. -/
def parseDayField (s : Str) : Option Nat :=
  if okNumField s 2 then some (parseNat s)
  else
    match s with
    | [' ', c] => if isDigit c && !(c == '0') then some (digitVal c) else none
    | _ => none

/-- The `%m` field: one or two digits. -/
def parseMonthField (s : Str) : Option Nat :=
  if okNumField s 2 then some (parseNat s) else none

/-- The `%Y` field as the strict format parser reads it: exactly four
digits. -/
def parseYearField (s : Str) : Option Nat :=
  if okNumField s 4 && decide (s.length = 4) then some (parseNat s) else none

/-- Calendar validation performed on the parsed components: a real day of a
real month, in a year `datetime` accepts (at least 1; at most 9999 is forced
by the four-digit field). -/
def validYMD (d m y : Nat) : Bool :=
  decide (1 ≤ y ∧ 1 ≤ m ∧ m ≤ 12 ∧ 1 ≤ d ∧ d ≤ daysInMonth m y)

/-- The strict parse `pd.to_datetime(cell, format="%d.%m.%Y")` performs on one
present (non-NaN) cell: exactly three dot-separated fields matching `%d`,
`%m` and `%Y`, whose values form a real calendar date; any other text raises
`ValueError`, modelled as `none`. (The datetime64[ns] range check happens
after this parse and raises a different error.) -/
def parseDate (s : Str) : Option Date :=
  match splitDots s with
  | [ds, ms, ys] =>
    match parseDayField ds, parseMonthField ms, parseYearField ys with
    | some dd, some mm, some yy =>
      if validYMD dd mm yy then some ⟨dd, mm, yy⟩ else none
    | _, _, _ => none
  | _ => none

theorem splitDots_no_dot (s : Str) (h : '.' ∉ s) : splitDots s = [s] := by
  induction s with
  | nil => rfl
  | cons c rest ih =>
    have hc : c ≠ '.' := fun hc => h (by simp [hc])
    have hrest : '.' ∉ rest := fun hr => h (by simp [hr])
    unfold splitDots
    rw [if_neg hc, ih hrest]

theorem splitDots_append (a b : Str) (h : '.' ∉ a) :
    splitDots (a ++ '.' :: b) = a :: splitDots b := by
  induction a with
  | nil => simp [splitDots]
  | cons c rest ih =>
    have hc : c ≠ '.' := fun hc => h (by simp [hc])
    have hrest : '.' ∉ rest := fun hr => h (by simp [hr])
    have hne : splitDots (rest ++ '.' :: b) = rest :: splitDots b := ih hrest
    simp only [List.cons_append, splitDots, hne]
    simp [hc]
    rw [hne]

theorem pad2_all_digits (n : Nat) : ∀ c ∈ pad2 n, isDigit c = true := by
  intro c hc
  unfold pad2 at hc
  by_cases h : n < 10
  · rw [if_pos h] at hc
    rcases List.mem_cons.mp hc with h0 | hmem
    · subst h0
      decide
    · exact renderNat_all_digits n c hmem
  · rw [if_neg h] at hc
    exact renderNat_all_digits n c hc

theorem pad2_no_dot (n : Nat) : '.' ∉ pad2 n := by
  intro h
  exact isDigit_ne_dot (pad2_all_digits n '.' h) rfl

theorem renderNat_no_dot (n : Nat) : '.' ∉ renderNat n := by
  intro h
  exact isDigit_ne_dot (renderNat_all_digits n '.' h) rfl

theorem parseNat_pad2 (n : Nat) : parseNat (pad2 n) = parseNat (renderNat n) := by
  unfold pad2
  by_cases h : n < 10
  · rw [if_pos h]
    unfold parseNat
    simp [digitVal]
  · rw [if_neg h]

theorem pad2_ne_nil (n : Nat) : pad2 n ≠ [] := by
  unfold pad2
  by_cases h : n < 10
  · simp [h]
  · simpa [h] using renderNat_ne_nil n

theorem pad2_length_le {n : Nat} (hn : n < 100) : (pad2 n).length ≤ 2 := by
  unfold pad2
  by_cases h : n < 10
  · rw [if_pos h]
    have : (renderNat n).length ≤ 1 := renderNat_length_le (by simpa using h) (by norm_num)
    simpa using this
  · rw [if_neg h]
    exact renderNat_length_le (by simpa using hn) (by norm_num)

theorem splitDots_formatDate (d : Date) :
    splitDots (formatDate d) = [pad2 d.day, pad2 d.month, renderNat d.year] := by
  unfold formatDate
  rw [splitDots_append _ _ (pad2_no_dot d.day),
    splitDots_append _ _ (pad2_no_dot d.month),
    splitDots_no_dot _ (renderNat_no_dot d.year)]

/-- Round trip of `strftime`/`strptime` on the fixed format: a valid calendar
date with a four-digit year parses back to itself. -/
theorem parseDate_formatDate {d : Date} (h : d.Valid) : parseDate (formatDate d) = some d := by
  obtain ⟨hm1, hm2, hd1, hd2, hy1, hy2⟩ := h
  have hdm : d.day ≤ 31 := by
    have : daysInMonth d.month d.year ≤ 31 := by
      unfold daysInMonth
      split
      · split <;> omega
      · split <;> omega
    omega
  unfold parseDate
  rw [splitDots_formatDate]
  have hfday : parseDayField (pad2 d.day) = some d.day := by
    unfold parseDayField
    rw [if_pos]
    · rw [parseNat_pad2, parseNat_renderNat]
    · unfold okNumField
      exact decide_eq_true ⟨pad2_ne_nil d.day, pad2_length_le (by omega), pad2_all_digits d.day⟩
  have hfmonth : parseMonthField (pad2 d.month) = some d.month := by
    unfold parseMonthField
    rw [if_pos]
    · rw [parseNat_pad2, parseNat_renderNat]
    · unfold okNumField
      exact decide_eq_true
        ⟨pad2_ne_nil d.month, pad2_length_le (by omega), pad2_all_digits d.month⟩
  have hlen : (renderNat d.year).length = 4 := renderNat_length_four hy1 hy2
  have hfyear : parseYearField (renderNat d.year) = some d.year := by
    unfold parseYearField
    rw [if_pos]
    · rw [parseNat_renderNat]
    · rw [Bool.and_eq_true]
      constructor
      · unfold okNumField
        exact decide_eq_true ⟨renderNat_ne_nil d.year, by omega, renderNat_all_digits d.year⟩
      · exact decide_eq_true hlen
  have hv : validYMD d.day d.month d.year = true := by
    unfold validYMD
    exact decide_eq_true ⟨by omega, hm1, hm2, hd1, hd2⟩
  simp [hfday, hfmonth, hfyear, hv]

/-- The category cell text for income rows (`"Income"`). -/
def incomeStr : Str := ['I', 'n', 'c', 'o', 'm', 'e']

/-- The category cell text for expense rows (`"Expense"`). -/
def expenseStr : Str := ['E', 'x', 'p', 'e', 'n', 's', 'e']

/-- A transaction as the UI's entry surface produces it. -/
structure Tx where
  date : Date
  amount : ℚ
  category : Str
  description : Str
deriving DecidableEq

/-- A stored data row: the four cells written by `csv.DictWriter.writerow` in
COLUMNS order. The date cell is raw text (rebuilt by re-parsing on read);
`amount` is carried as its numeric value, since Python's float/text round trip
is exact; `category` and `description` are the texts the csv module
round-trips. -/
structure Row where
  dateStr : Str
  amount : ℚ
  category : Str
  description : Str
deriving DecidableEq

/-- One line of the backing CSV file: the canonical header
`date,amount,category,description` that `pd.DataFrame(columns=COLUMNS).to_csv`
writes, or a data row. -/
inductive Line where
  | header
  | row (r : Row)
deriving DecidableEq

/-- The backing file: `none` when absent, otherwise its lines in order. -/
abbrev LedgerFile := Option (List Line)

/-- The row `CSV.add_entry` writes for a transaction: the date rendered by
`date.strftime(CSV.FORMAT)`, the other fields as given. -/
def serialize (t : Tx) : Row :=
  ⟨formatDate t.date, t.amount, t.category, t.description⟩

/-- Models `CSV.initialize_csv`: `pd.read_csv` raises `FileNotFoundError`
exactly when the file is absent, and only then is an empty DataFrame with the
fixed columns written, producing a file holding the header line alone. No code
path writes to a present file, whatever its contents. -/
def init_csv (f : LedgerFile) : LedgerFile :=
  match f with
  | none => some [Line.header]
  | some ls => some ls

/-- Models `CSV.add_entry`: opening with mode `"a"` creates a missing file,
and `writerow` appends exactly one data row - never a header. -/
def add_entry (f : LedgerFile) (t : Tx) : LedgerFile :=
  match f with
  | none => some [Line.row (serialize t)]
  | some ls => some (ls ++ [Line.row (serialize t)])

/-- The exceptions `CSV.get_transactions` can raise: `FileNotFoundError`
(missing file), `EmptyDataError` (file with no lines), `KeyError` (the first
line was consumed as the column header and none of its cells is the literal
text `date`, so no `date` column exists), `ValueError` from `pd.to_datetime`
(a present date cell that does not match the fixed format), and
`OutOfBoundsDatetime` (a parsed date, or a query stamp, outside the
datetime64[ns] range). -/
inductive ReadError where
  | fileNotFound
  | emptyData
  | keyError
  | parseError
  | outOfBounds
deriving DecidableEq

instance {ε α : Type} [DecidableEq ε] [DecidableEq α] : DecidableEq (Except ε α) :=
  fun a b =>
    match a, b with
    | Except.error e1, Except.error e2 =>
      if h : e1 = e2 then isTrue (by rw [h]) else isFalse (fun hc => h (Except.error.inj hc))
    | Except.ok x, Except.ok y =>
      if h : x = y then isTrue (by rw [h]) else isFalse (fun hc => h (Except.ok.inj hc))
    | Except.error _, Except.ok _ => isFalse (fun hc => Except.noConfusion hc)
    | Except.ok _, Except.error _ => isFalse (fun hc => Except.noConfusion hc)

/-- How `pd.read_csv` surfaces a non-first line as a data row. A stray header
line among the data is an ordinary row whose date cell holds the literal text
`date`, which no date parse accepts (its other cells are immaterial: the date
parse fails before they are read). -/
def lineAsRow : Line → Row
  | Line.header => ⟨['d', 'a', 't', 'e'], 0, ['c', 'a', 't', 'e', 'g', 'o', 'r', 'y'],
      ['d', 'e', 's', 'c', 'r', 'i', 'p', 't', 'i', 'o', 'n']⟩
  | Line.row r => r

/-- The default NA-marker texts of `pd.read_csv` (`na_values` with
`keep_default_na=True`): a cell holding exactly one of these reads back as
NaN. -/
def naTexts : List Str :=
  [[],
   ['#', 'N', '/', 'A'],
   ['#', 'N', '/', 'A', ' ', 'N', '/', 'A'],
   ['#', 'N', 'A'],
   ['-', '1', '.', '#', 'I', 'N', 'D'],
   ['-', '1', '.', '#', 'Q', 'N', 'A', 'N'],
   ['-', 'N', 'a', 'N'],
   ['-', 'n', 'a', 'n'],
   ['1', '.', '#', 'I', 'N', 'D'],
   ['1', '.', '#', 'Q', 'N', 'A', 'N'],
   ['<', 'N', 'A', '>'],
   ['N', '/', 'A'],
   ['N', 'A'],
   ['N', 'U', 'L', 'L'],
   ['N', 'a', 'N'],
   ['N', 'o', 'n', 'e'],
   ['n', '/', 'a'],
   ['n', 'a', 'n'],
   ['n', 'u', 'l', 'l']]

/-- How `pd.read_csv` surfaces one text cell: an NA-marker text becomes NaN
(`none`), anything else is kept as is. -/
def readCell (s : Str) : Option Str :=
  if s ∈ naTexts then none else some s

/-- The literal column label `date` the code looks up. -/
def dateText : Str := ['d', 'a', 't', 'e']

/-- Which column of the frame is named `date` after the first line was
consumed as the header: the first cell whose text is literally `date`
(positions 0, 2, 3 of the fixed column order; position 1 holds a float's
text, which is never `date`). `none` models the `KeyError` of `df["date"]`. -/
def dateColIdx (r : Row) : Option Nat :=
  if r.dateStr == dateText then some 0
  else if r.category == dateText then some 2
  else if r.description == dateText then some 3
  else none

/-- The text of the j-th cell of a data row, for the positions `dateColIdx`
can select. -/
def cellAt (j : Nat) (r : Row) : Str :=
  if j = 2 then r.category else if j = 3 then r.description else r.dateStr

/-- The first full day representable as a datetime64[ns] midnight stamp
(`Timestamp.min` is 1677-09-21T00:12:43). -/
def tsMinFullDay : Date := ⟨22, 9, 1677⟩

/-- The last day representable as a datetime64[ns] midnight stamp
(`Timestamp.max` is 2262-04-11T23:47:16). -/
def tsMaxDay : Date := ⟨11, 4, 2262⟩

/-- The last day whose 23:59:59.999999 stamp is representable. -/
def tsMaxFullDay : Date := ⟨10, 4, 2262⟩

/-- The first day whose 23:59:59.999999 stamp is representable. -/
def tsMinDay : Date := ⟨21, 9, 1677⟩

/-- Whether a parsed date cell, stamped at midnight, fits datetime64[ns];
outside it `pd.to_datetime` raises `OutOfBoundsDatetime`. -/
def inTimestampBounds (d : Date) : Bool :=
  dateLe tsMinFullDay d && dateLe d tsMaxDay

/-- Whether `datetime.combine(start_date, time.min)` converts to a Timestamp
when the mask compares it to the column. -/
def startOk (s : Date) : Bool := dateLe tsMinFullDay s && dateLe s tsMaxDay

/-- Whether `datetime.combine(end_date, time.max)` converts to a Timestamp
when the mask compares it to the column. -/
def endOk (e : Date) : Bool := dateLe tsMinDay e && dateLe e tsMaxFullDay

/-- A row of the frame `get_transactions` returns: a parsed date, the amount,
and the category and description cells as `read_csv` surfaced them (`none`
for NaN). -/
structure RetTx where
  date : Date
  amount : ℚ
  category : Option Str
  description : Option Str
deriving DecidableEq

/-- A row after `read_csv` and the `to_datetime` conversion of the date
column: the date value is NaT (`none`) when the source cell was NaN. -/
structure ReadoutRow where
  dateVal : Option Date
  amount : ℚ
  category : Option Str
  description : Option Str
deriving DecidableEq

/-- The readout a returned row corresponds to. -/
def outOf (t : RetTx) : ReadoutRow := ⟨some t.date, t.amount, t.category, t.description⟩

/-- The row the UI's transaction reads back as when none of its cells is an
NA marker. -/
def retOf (t : Tx) : RetTx := ⟨t.date, t.amount, some t.category, some t.description⟩

/-- Models `read_csv` plus the element-wise work of `pd.to_datetime` on one
row, with column `j` feeding the date: a NaN source cell passes through as
NaT without error; present text must match the format (`ValueError`) and land
inside datetime64[ns] (`OutOfBoundsDatetime`). -/
def readRow (j : Nat) (r : Row) : Except ReadError ReadoutRow :=
  match readCell (cellAt j r) with
  | none => Except.ok ⟨none, r.amount, readCell r.category, readCell r.description⟩
  | some txt =>
    match parseDate txt with
    | none => Except.error ReadError.parseError
    | some d =>
      if inTimestampBounds d then
        Except.ok ⟨some d, r.amount, readCell r.category, readCell r.description⟩
      else Except.error ReadError.outOfBounds

/-- Models `pd.to_datetime` over the whole date column: cells are converted
in order and the first offending one raises, so a failure aborts the whole
read while NaN cells never fail. -/
def readAll (j : Nat) : List Row → Except ReadError (List ReadoutRow)
  | [] => Except.ok []
  | r :: rs =>
    match readRow j r with
    | Except.error err => Except.error err
    | Except.ok o =>
      match readAll j rs with
      | Except.error err => Except.error err
      | Except.ok os => Except.ok (o :: os)

/-- The mask `(df.date >= start) & (df.date <= end)` after `start` was
combined with `00:00:00` and `end` with `23:59:59.999999`: both bounds are
inclusive at day granularity. -/
def inRange (s e : Date) (t : RetTx) : Bool :=
  dateLe s t.date && dateLe t.date e

/-- What the mask keeps of one readout row: a NaT date compares false on both
sides and the row is dropped silently; a dated row is kept when it lies in
the inclusive range. -/
def maskFn (s e : Date) (o : ReadoutRow) : Option RetTx :=
  match o.dateVal with
  | none => none
  | some d =>
    if dateLe s d && dateLe d e then some ⟨d, o.amount, o.category, o.description⟩
    else none

/-- Models `CSV.get_transactions`: read the whole file (the first line is
consumed as the column header; a missing or empty file raises), look up the
`date` column (raising `KeyError` unless some header cell is literally
`date`), convert that column all-or-nothing with NaN cells passing through as
NaT, convert the two query stamps, and keep the rows the mask accepts, in
file order. -/
def get_transactions (f : LedgerFile) (s e : Date) : Except ReadError (List RetTx) :=
  match f with
  | none => Except.error ReadError.fileNotFound
  | some [] => Except.error ReadError.emptyData
  | some (first :: rest) =>
    match dateColIdx (lineAsRow first) with
    | none => Except.error ReadError.keyError
    | some j =>
      match readAll j (rest.map lineAsRow) with
      | Except.error err => Except.error err
      | Except.ok outs =>
        if startOk s && endOk e then Except.ok (outs.filterMap (maskFn s e))
        else Except.error ReadError.outOfBounds

/-- Sum of the amount column over the rows whose category cell is `cat`. -/
def sumByCategory (txs : List Tx) (cat : Str) : ℚ :=
  ((txs.filter (fun t => t.category == cat)).map Tx.amount).sum

/-- Models `df[df["category"] == "Income"]["amount"].sum()` in `main`. -/
def total_income (txs : List Tx) : ℚ := sumByCategory txs incomeStr

/-- Models `df[df["category"] == "Expense"]["amount"].sum()` in `main`. -/
def total_expense (txs : List Tx) : ℚ := sumByCategory txs expenseStr

/-- The three summary metrics `main` renders: total income, total expense,
net savings. -/
def summarize (txs : List Tx) : ℚ × ℚ × ℚ :=
  (total_income txs, total_expense txs, total_income txs - total_expense txs)

/-- The expense filter `df["category"] == "Expense"` on the retrieved frame:
a NaN category cell compares unequal to every text. -/
def isExpenseR (t : RetTx) : Bool := t.category == some expenseStr

/-- Key set of `expense_df.groupby("description")["amount"].sum()`: pandas'
groupby drops NaN keys, so only the present description cells of expense rows
become entries, each once (order immaterial for the mapping). -/
def breakdownKeysR (txs : List RetTx) : List Str :=
  ((txs.filter isExpenseR).filterMap RetTx.description).dedup

/-- The total the groupby-sum assigns to one (present) description. -/
def breakdownValueR (txs : List RetTx) (dsc : Str) : ℚ :=
  ((txs.filter (fun t => isExpenseR t && t.description == some dsc)).map RetTx.amount).sum

/-- The index `df.set_index("date")` leaves on the frame in
`plot_transactions`: one entry per row, in row order, duplicates kept. -/
def dateAxis (txs : List Tx) : List Date := txs.map Tx.date

/-- Total amount of the rows of category `cat` dated `d`: the value the
`resample("D").sum().reindex(df.index, fill_value=0)` pipeline yields at
every index entry holding `d` (a day with no rows of `cat` gets 0, whether
from an empty resample bin or from the reindex fill). -/
def dailySum (txs : List Tx) (cat : Str) (d : Date) : ℚ :=
  ((txs.filter (fun t => t.category == cat && t.date == d)).map Tx.amount).sum

/-- The income line of `plot_transactions`, one value per index entry. -/
def incomeSeries (txs : List Tx) : List ℚ :=
  (dateAxis txs).map (dailySum txs incomeStr)

/-- The expense line of `plot_transactions`, one value per index entry. -/
def expenseSeries (txs : List Tx) : List ℚ :=
  (dateAxis txs).map (dailySum txs expenseStr)

/-- The two aligned series `plot_transactions` draws; an empty frame returns
before building them. -/
def plot_series (txs : List Tx) : Option (List ℚ × List ℚ) :=
  if txs.isEmpty then none else some (incomeSeries txs, expenseSeries txs)

/-- The caller-visible state of a DataFrame object handed to the report
functions: its rows, and whether `set_index("date", inplace=True)` has moved
the date column into the index. -/
structure Frame where
  dateIndexed : Bool
  rows : List Tx
deriving DecidableEq

/-- State effect of `plot_transactions` on the frame it receives: an empty
frame is returned untouched, otherwise line 65 rewrites the date column and
line 66 sets it as the index in place, altering the caller's object. -/
def plot_transactions_frame (df : Frame) : Frame :=
  if df.rows.isEmpty then df else ⟨true, df.rows⟩

/-- State effect of `plot_expense_analysis` on the frame it receives:
filtering and groupby build new objects, the argument is never written. -/
def plot_expense_analysis_frame (df : Frame) : Frame := df

/-- State effect of the summary block of `main` (lines 148-150): the three
sums only read the frame. -/
def summarize_frame (df : Frame) : Frame := df

/-- Outcome of the view section of `main` for one query. -/
inductive QueryOutcome where
  | invalidRange
  | result (r : Except ReadError (List RetTx))

/-- Models `main` lines 137-140: the range check runs before any store
access, and only the else branch calls `CSV.get_transactions`. -/
def query_flow (f : LedgerFile) (s e : Date) : QueryOutcome :=
  if dateLt e s then QueryOutcome.invalidRange
  else QueryOutcome.result (get_transactions f s e)

theorem dateLe_refl (d : Date) : dateLe d d = true := by
  unfold dateLe
  simp

theorem dateLe_antisymm {a b : Date} (h1 : dateLe a b = true) (h2 : dateLe b a = true) :
    a = b := by
  unfold dateLe at h1 h2
  rw [decide_eq_true_eq] at h1 h2
  rcases a with ⟨ad, am, ay⟩
  rcases b with ⟨bd, bm, by'⟩
  simp only [Date.mk.injEq]
  simp only at h1 h2
  omega

theorem inRange_self (s : Date) (t : RetTx) : inRange s s t = (t.date == s) := by
  unfold inRange
  by_cases h : t.date = s
  · rw [h]
    simp [dateLe_refl]
  · rw [beq_eq_false_iff_ne.mpr h]
    cases h1 : dateLe s t.date
    · rfl
    · cases h2 : dateLe t.date s
      · rfl
      · exact absurd (dateLe_antisymm h2 h1) h

theorem foldl_add_entry (ts : List Tx) (ls : List Line) :
    ts.foldl add_entry (some ls)
      = some (ls ++ ts.map (fun t => Line.row (serialize t))) := by
  induction ts generalizing ls with
  | nil => simp
  | cons t ts ih =>
    have h : add_entry (some ls) t = some (ls ++ [Line.row (serialize t)]) := rfl
    rw [List.foldl_cons, h, ih]
    simp

theorem map_lineAsRow_rows (rows : List Row) :
    (rows.map Line.row).map lineAsRow = rows := by
  rw [List.map_map]
  exact List.map_id'' (fun r => rfl) rows

theorem formatDate_chars (d : Date) : ∀ c ∈ formatDate d, isDigit c = true ∨ c = '.' := by
  intro c hc
  unfold formatDate at hc
  simp only [List.mem_append, List.mem_cons] at hc
  rcases hc with h | h | h | h | h
  · exact Or.inl (pad2_all_digits d.day c h)
  · exact Or.inr h
  · exact Or.inl (pad2_all_digits d.month c h)
  · exact Or.inr h
  · exact Or.inl (renderNat_all_digits d.year c h)

theorem formatDate_ne_nil (d : Date) : formatDate d ≠ [] := by
  unfold formatDate
  intro h
  exact pad2_ne_nil d.day (List.append_eq_nil.mp h).1

theorem formatDate_no_char {d : Date} {c : Char} (hc1 : isDigit c = false) (hc2 : c ≠ '.')
    (h : c ∈ formatDate d) : False := by
  rcases formatDate_chars d c h with h' | h'
  · rw [hc1] at h'
    exact Bool.noConfusion h'
  · exact hc2 h'

theorem readCell_formatDate (d : Date) : readCell (formatDate d) = some (formatDate d) := by
  unfold readCell
  rw [if_neg]
  intro hmem
  unfold naTexts at hmem
  simp only [List.mem_cons, List.not_mem_nil, or_false] at hmem
  rcases hmem with h | h | h | h | h | h | h | h | h | h | h | h | h | h | h | h | h | h | h
  · exact formatDate_ne_nil d h
  · exact @formatDate_no_char d '#' (by decide) (by decide) (by rw [h]; decide)
  · exact @formatDate_no_char d '#' (by decide) (by decide) (by rw [h]; decide)
  · exact @formatDate_no_char d '#' (by decide) (by decide) (by rw [h]; decide)
  · exact @formatDate_no_char d '#' (by decide) (by decide) (by rw [h]; decide)
  · exact @formatDate_no_char d '#' (by decide) (by decide) (by rw [h]; decide)
  · exact @formatDate_no_char d '-' (by decide) (by decide) (by rw [h]; decide)
  · exact @formatDate_no_char d '-' (by decide) (by decide) (by rw [h]; decide)
  · exact @formatDate_no_char d '#' (by decide) (by decide) (by rw [h]; decide)
  · exact @formatDate_no_char d '#' (by decide) (by decide) (by rw [h]; decide)
  · exact @formatDate_no_char d '<' (by decide) (by decide) (by rw [h]; decide)
  · exact @formatDate_no_char d 'N' (by decide) (by decide) (by rw [h]; decide)
  · exact @formatDate_no_char d 'N' (by decide) (by decide) (by rw [h]; decide)
  · exact @formatDate_no_char d 'N' (by decide) (by decide) (by rw [h]; decide)
  · exact @formatDate_no_char d 'N' (by decide) (by decide) (by rw [h]; decide)
  · exact @formatDate_no_char d 'N' (by decide) (by decide) (by rw [h]; decide)
  · exact @formatDate_no_char d 'n' (by decide) (by decide) (by rw [h]; decide)
  · exact @formatDate_no_char d 'n' (by decide) (by decide) (by rw [h]; decide)
  · exact @formatDate_no_char d 'n' (by decide) (by decide) (by rw [h]; decide)

theorem formatDate_ne_dateText (d : Date) : (formatDate d == dateText) = false := by
  apply beq_eq_false_iff_ne.mpr
  intro h
  exact formatDate_no_char (by decide) (by decide) (h ▸ (by decide : 'a' ∈ dateText))

theorem readRow_serialize {t : Tx} (hv : t.date.Valid)
    (hb : inTimestampBounds t.date = true)
    (hcat : readCell t.category = some t.category)
    (hdesc : readCell t.description = some t.description) :
    readRow 0 (serialize t) = Except.ok (outOf (retOf t)) := by
  have h1 : cellAt 0 (serialize t) = formatDate t.date := rfl
  have h2 : (serialize t).category = t.category := rfl
  have h3 : (serialize t).description = t.description := rfl
  have h4 : (serialize t).amount = t.amount := rfl
  unfold readRow
  rw [h1, h2, h3, readCell_formatDate]
  simp only [parseDate_formatDate hv, hb, if_true, hcat, hdesc, h4]
  rfl

theorem readAll_serialize (ts : List Tx)
    (hv : ∀ t ∈ ts, t.date.Valid)
    (hb : ∀ t ∈ ts, inTimestampBounds t.date = true)
    (hcat : ∀ t ∈ ts, readCell t.category = some t.category)
    (hdesc : ∀ t ∈ ts, readCell t.description = some t.description) :
    readAll 0 (ts.map serialize) = Except.ok ((ts.map retOf).map outOf) := by
  induction ts with
  | nil => rfl
  | cons t ts ih =>
    have hrow := readRow_serialize (hv t (by simp)) (hb t (by simp))
      (hcat t (by simp)) (hdesc t (by simp))
    have hrest := ih (fun u hu => hv u (by simp [hu])) (fun u hu => hb u (by simp [hu]))
      (fun u hu => hcat u (by simp [hu])) (fun u hu => hdesc u (by simp [hu]))
    simp only [List.map_cons, readAll, hrow, hrest]

theorem maskFn_outOf (s e : Date) (t : RetTx) :
    maskFn s e (outOf t) = if inRange s e t then some t else none := rfl

theorem filterMap_maskFn (txs : List RetTx) (s e : Date) :
    (txs.map outOf).filterMap (maskFn s e) = txs.filter (inRange s e) := by
  induction txs with
  | nil => rfl
  | cons t ts ih =>
    simp only [List.map_cons, List.filterMap_cons, maskFn_outOf, List.filter_cons]
    by_cases h : inRange s e t = true
    · simp [h, ih]
    · simp only [Bool.not_eq_true] at h
      simp [h, ih]

theorem readAll_ok_length {j : Nat} {rows : List Row} {outs : List ReadoutRow}
    (h : readAll j rows = Except.ok outs) : outs.length = rows.length := by
  induction rows generalizing outs with
  | nil =>
    unfold readAll at h
    cases h
    rfl
  | cons r rs ih =>
    unfold readAll at h
    rcases h1 : readRow j r with err | o
    · rw [h1] at h
      exact absurd h (by simp)
    · rw [h1] at h
      rcases h2 : readAll j rs with err | os
      · rw [h2] at h
        exact absurd h (by simp)
      · rw [h2] at h
        cases h
        simp [ih h2]

theorem get_transactions_cons (first : Line) (rest : List Line) (s e : Date) :
    get_transactions (some (first :: rest)) s e
      = match dateColIdx (lineAsRow first) with
        | none => Except.error ReadError.keyError
        | some j =>
          match readAll j (rest.map lineAsRow) with
          | Except.error err => Except.error err
          | Except.ok outs =>
            if startOk s && endOk e then Except.ok (outs.filterMap (maskFn s e))
            else Except.error ReadError.outOfBounds := rfl

theorem get_transactions_header_eqn (rest : List Line) (s e : Date) :
    get_transactions (some (Line.header :: rest)) s e
      = match readAll 0 (rest.map lineAsRow) with
        | Except.error err => Except.error err
        | Except.ok outs =>
          if startOk s && endOk e then Except.ok (outs.filterMap (maskFn s e))
          else Except.error ReadError.outOfBounds := rfl

/-- C6: Initialize() is idempotent: an absent backing file is created holding
exactly the fixed header row and an empty body; any pre-existing file is left
with its contents unchanged, whatever they are (none of them validated), and
a repeated call never alters what the first call left. -/
theorem C6_initialize_idempotent :
    init_csv none = some [Line.header] ∧
    (∀ ls : List Line, init_csv (some ls) = some ls) ∧
    (∀ f : LedgerFile, init_csv (init_csv f) = init_csv f) := by
  refine ⟨rfl, fun ls => rfl, fun f => ?_⟩
  cases f <;> rfl

/-- C10: AddEntry on an absent backing file creates it with the serialized
transaction as its first line and no header row anywhere, also after further
appends; every subsequent GetTransactions consumes that first row as the
column header, so that transaction is never included in any retrieval result:
a successful read returns at most the later appends, and whenever no cell of
the consumed row is the literal text `date` (true of every row the UI
produces, whose category is `Income` or `Expense`), the read fails for want
of a `date` column. -/
theorem C10_headerless_first_row (t : Tx) (ts : List Tx) (s e : Date) :
    ts.foldl add_entry (add_entry none t)
      = some (Line.row (serialize t) :: ts.map (fun u => Line.row (serialize u))) ∧
    (∀ l ∈ Line.row (serialize t) :: ts.map (fun u => Line.row (serialize u)),
      l ≠ Line.header) ∧
    (∀ res, get_transactions (ts.foldl add_entry (add_entry none t)) s e = Except.ok res →
      res.length ≤ ts.length) ∧
    (t.category ≠ dateText → t.description ≠ dateText →
      get_transactions (ts.foldl add_entry (add_entry none t)) s e
        = Except.error ReadError.keyError) := by
  have h0 : add_entry none t = some [Line.row (serialize t)] := rfl
  have h1 : ts.foldl add_entry (add_entry none t)
      = some (Line.row (serialize t) :: ts.map (fun u => Line.row (serialize u))) := by
    rw [h0, foldl_add_entry]
    rfl
  have hlr : lineAsRow (Line.row (serialize t)) = serialize t := rfl
  refine ⟨h1, ?_, ?_, ?_⟩
  · intro l hl
    rcases List.mem_cons.mp hl with rfl | hmem
    · exact fun h => Line.noConfusion h
    · obtain ⟨u, _, rfl⟩ := List.mem_map.mp hmem
      exact fun h => Line.noConfusion h
  · intro res hres
    rw [h1, get_transactions_cons] at hres
    rcases hcol : dateColIdx (lineAsRow (Line.row (serialize t))) with _ | j
    · simp only [hcol] at hres
      exact Except.noConfusion hres
    · simp only [hcol] at hres
      rcases hread : readAll j ((ts.map (fun u => Line.row (serialize u))).map lineAsRow)
          with err | outs
      · simp only [hread] at hres
        exact Except.noConfusion hres
      · simp only [hread] at hres
        by_cases hb : (startOk s && endOk e) = true
        · rw [if_pos hb] at hres
          simp only [Except.ok.injEq] at hres
          rw [← hres]
          have hlen1 : (outs.filterMap (maskFn s e)).length ≤ outs.length :=
            List.length_filterMap_le _ _
          have hlen2 := readAll_ok_length hread
          simp only [List.length_map] at hlen2
          omega
        · rw [if_neg hb] at hres
          exact Except.noConfusion hres
  · intro hcat hdesc
    rw [h1, get_transactions_cons]
    have hcol : dateColIdx (lineAsRow (Line.row (serialize t))) = none := by
      rw [hlr]
      unfold dateColIdx
      have e1 : ((serialize t).dateStr == dateText) = false := formatDate_ne_dateText t.date
      have e2 : ((serialize t).category == dateText) = false := beq_eq_false_iff_ne.mpr hcat
      have e3 : ((serialize t).description == dateText) = false := beq_eq_false_iff_ne.mpr hdesc
      rw [e1, e2, e3]
      rfl
    rw [hcol]

/-- The salary and groceries transactions of the spec's end-to-end scenario,
used as the concrete instance for the round-trip property. -/
def exC1 : List Tx :=
  [⟨⟨1, 3, 2024⟩, 500, incomeStr, ['S', 'a', 'l', 'a', 'r', 'y']⟩,
   ⟨⟨5, 3, 2024⟩, 50, expenseStr, ['G', 'r', 'o', 'c', 'e', 'r', 'i', 'e', 's']⟩]

/-- A transaction as the UI's entry surface produces it by default: the
description text left empty. -/
def exC1blank : Tx := ⟨⟨1, 3, 2024⟩, 500, incomeStr, []⟩

/-- Counterexample to the unrestricted round trip: a transaction whose
description was left empty (the UI default) reads back with a NaN
description - the empty cell is one of read_csv's NA markers - so the
retrieved row does not carry the same field values. -/
theorem C1_counterexample :
    get_transactions ([exC1blank].foldl add_entry (init_csv none)) ⟨1, 3, 2024⟩ ⟨31, 3, 2024⟩
      = Except.ok [⟨⟨1, 3, 2024⟩, 500, some incomeStr, none⟩] ∧
    (⟨⟨1, 3, 2024⟩, 500, some incomeStr, none⟩ : RetTx) ≠ retOf exC1blank := by
  constructor
  · decide
  · decide

/-- C1 (amended): appending any sequence of valid transactions - dated inside
the datetime64[ns] day range, with category and description texts that are
not NA markers (in particular a non-empty description) - with AddEntry into a
freshly initialized backing file and reading back with GetTransactions over a
covering range whose stamps convert returns exactly those transactions, with
the same date, amount, category and description, in the order they were
appended. -/
theorem C1_roundtrip (ts : List Tx) (s e : Date)
    (hvalid : ∀ t ∈ ts, t.date.Valid)
    (hbound : ∀ t ∈ ts, inTimestampBounds t.date = true)
    (hcat : ∀ t ∈ ts, readCell t.category = some t.category)
    (hdesc : ∀ t ∈ ts, readCell t.description = some t.description)
    (hs : startOk s = true) (he : endOk e = true)
    (hcover : ∀ t ∈ ts, dateLe s t.date = true ∧ dateLe t.date e = true) :
    get_transactions (ts.foldl add_entry (init_csv none)) s e
      = Except.ok (ts.map retOf) := by
  have h1 : ts.foldl add_entry (init_csv none)
      = some (Line.header :: ts.map (fun t => Line.row (serialize t))) := by
    have h0 : init_csv none = some [Line.header] := rfl
    rw [h0, foldl_add_entry]
    rfl
  rw [h1, get_transactions_header_eqn]
  have h2 : (ts.map (fun t => Line.row (serialize t))).map lineAsRow = ts.map serialize := by
    rw [List.map_map]
    rfl
  rw [h2, readAll_serialize ts hvalid hbound hcat hdesc]
  show (if startOk s && endOk e then
      Except.ok (((ts.map retOf).map outOf).filterMap (maskFn s e))
    else Except.error ReadError.outOfBounds) = Except.ok (ts.map retOf)
  rw [hs, he]
  simp only [Bool.and_self, if_true]
  rw [filterMap_maskFn]
  congr 1
  refine List.filter_eq_self.mpr (fun rt hrt => ?_)
  obtain ⟨u, hu, rfl⟩ := List.mem_map.mp hrt
  obtain ⟨hs', he'⟩ := hcover u hu
  have hd : (retOf u).date = u.date := rfl
  unfold inRange
  rw [hd, hs', he']
  rfl

/-- Witness for the amended round trip: the end-to-end scenario's two March
rows, appended to a fresh file and read back over March 2024. -/
theorem C1_roundtrip_witness :
    (∀ t ∈ exC1, t.date.Valid) ∧
    (∀ t ∈ exC1, inTimestampBounds t.date = true) ∧
    (∀ t ∈ exC1, readCell t.category = some t.category) ∧
    (∀ t ∈ exC1, readCell t.description = some t.description) ∧
    startOk ⟨1, 3, 2024⟩ = true ∧ endOk ⟨31, 3, 2024⟩ = true ∧
    (∀ t ∈ exC1, dateLe ⟨1, 3, 2024⟩ t.date = true ∧ dateLe t.date ⟨31, 3, 2024⟩ = true) ∧
    get_transactions (exC1.foldl add_entry (init_csv none)) ⟨1, 3, 2024⟩ ⟨31, 3, 2024⟩
      = Except.ok (exC1.map retOf) :=
  ⟨by decide, by decide, by decide, by decide, by decide, by decide, by decide,
    C1_roundtrip exC1 ⟨1, 3, 2024⟩ ⟨31, 3, 2024⟩ (by decide) (by decide) (by decide)
      (by decide) (by decide) (by decide) (by decide)⟩

/-- A format-valid stored ledger outside the datetime64[ns] range: its single
row is dated 01.01.1200. -/
def exRowsC2oob : List Row :=
  [⟨['0', '1', '.', '0', '1', '.', '1', '2', '0', '0'], 500, incomeStr, ['x']⟩]

/-- Counterexample to the claimed filter: the date cell 01.01.1200 parses
under the fixed DD.MM.YYYY format, yet the read raises OutOfBoundsDatetime
instead of returning the one-row subset the claim prescribes for a covering
range. -/
theorem C2_counterexample :
    parseDate ['0', '1', '.', '0', '1', '.', '1', '2', '0', '0'] = some ⟨1, 1, 1200⟩ ∧
    get_transactions (some (Line.header :: exRowsC2oob.map Line.row)) ⟨1, 1, 1200⟩ ⟨31, 12, 1200⟩
      = Except.error ReadError.outOfBounds := by
  constructor
  · decide
  · decide

/-- C2 (amended): on a stored ledger whose rows' date cells are all present
(non-NA) text parsing under the fixed format to days inside the
datetime64[ns] range, and for query dates whose stamps convert,
GetTransactions returns exactly the rows whose date lies in the inclusive
range (at day granularity, in file order); membership in the result is
equivalent to lying inside both bounds, so a row is excluded precisely when
its day is strictly outside; with equal bounds exactly the rows of that
single day are returned. -/
theorem C2_range_filter (rows : List Row) (txs : List RetTx) (s e : Date)
    (hread : readAll 0 rows = Except.ok (txs.map outOf))
    (hs : startOk s = true) (he : endOk e = true) :
    get_transactions (some (Line.header :: rows.map Line.row)) s e
      = Except.ok (txs.filter (inRange s e)) ∧
    (∀ t, t ∈ txs.filter (inRange s e)
      ↔ t ∈ txs ∧ dateLe s t.date = true ∧ dateLe t.date e = true) ∧
    (endOk s = true →
      get_transactions (some (Line.header :: rows.map Line.row)) s s
        = Except.ok (txs.filter (fun t => t.date == s))) := by
  have hget : ∀ a b : Date, startOk a = true → endOk b = true →
      get_transactions (some (Line.header :: rows.map Line.row)) a b
        = Except.ok (txs.filter (inRange a b)) := by
    intro a b ha hb
    rw [get_transactions_header_eqn, map_lineAsRow_rows, hread]
    show (if startOk a && endOk b then
        Except.ok ((txs.map outOf).filterMap (maskFn a b))
      else Except.error ReadError.outOfBounds) = _
    rw [ha, hb]
    simp only [Bool.and_self, if_true]
    rw [filterMap_maskFn]
  refine ⟨hget s e hs he, ?_, ?_⟩
  · intro t
    simp [List.mem_filter, inRange, Bool.and_eq_true]
  · intro hse
    rw [hget s s hs hse]
    congr 1
    exact List.filter_congr (fun t _ => inRange_self s t)

/-- A well-formed stored ledger for the witness: two rows whose date cells
parse inside the bounds (their description cells are empty and read back as
NaN, which the range claim does not restrict). -/
def exRowsC2 : List Row :=
  [⟨['0', '1', '.', '0', '3', '.', '2', '0', '2', '4'], 500, incomeStr, []⟩,
   ⟨['0', '5', '.', '0', '3', '.', '2', '0', '2', '4'], 50, expenseStr, []⟩]

/-- The retrieved rows the witness ledger reads to. -/
def exTxsC2 : List RetTx :=
  [⟨⟨1, 3, 2024⟩, 500, some incomeStr, none⟩, ⟨⟨5, 3, 2024⟩, 50, some expenseStr, none⟩]

/-- Witness for the range filter on a concrete well-formed ledger. -/
theorem C2_range_filter_witness :
    readAll 0 exRowsC2 = Except.ok (exTxsC2.map outOf) ∧
    startOk ⟨1, 3, 2024⟩ = true ∧ endOk ⟨31, 3, 2024⟩ = true ∧
    get_transactions (some (Line.header :: exRowsC2.map Line.row)) ⟨1, 3, 2024⟩ ⟨31, 3, 2024⟩
      = Except.ok (exTxsC2.filter (inRange ⟨1, 3, 2024⟩ ⟨31, 3, 2024⟩)) :=
  ⟨by decide, by decide, by decide,
    (C2_range_filter exRowsC2 exTxsC2 ⟨1, 3, 2024⟩ ⟨31, 3, 2024⟩ (by decide) (by decide)
      (by decide)).1⟩

/-- C9: whenever the caller-supplied start date is after the end date, the
view flow of `main` presents the invalid-range error and never invokes
GetTransactions: the outcome is the error marker and does not depend on the
backing file at all. -/
theorem C9_invalid_range_blocks (f : LedgerFile) (s e : Date)
    (h : dateLt e s = true) :
    query_flow f s e = QueryOutcome.invalidRange ∧
    (∀ f' : LedgerFile, query_flow f s e = query_flow f' s e) := by
  constructor
  · unfold query_flow
    rw [h]
    rfl
  · intro f'
    unfold query_flow
    rw [h]
    rfl

/-- Witness for the invalid-range rejection: 02.01.2024 after 01.01.2024. -/
theorem C9_invalid_range_blocks_witness :
    dateLt ⟨1, 1, 2024⟩ ⟨2, 1, 2024⟩ = true ∧
    query_flow none ⟨2, 1, 2024⟩ ⟨1, 1, 2024⟩ = QueryOutcome.invalidRange :=
  ⟨by decide, (C9_invalid_range_blocks none ⟨2, 1, 2024⟩ ⟨1, 1, 2024⟩ (by decide)).1⟩

theorem sumByCategory_indicator (txs : List Tx) (cat : Str) :
    sumByCategory txs cat
      = (txs.map (fun t => if t.category = cat then t.amount else 0)).sum := by
  induction txs with
  | nil => rfl
  | cons t ts ih =>
    unfold sumByCategory at ih ⊢
    by_cases h : t.category = cat
    · simp [List.filter_cons, h, ih]
    · simp [List.filter_cons, h, ih]

/-- C4: Summarize returns (total income, total expense, net savings): the
income total sums amounts over exactly the rows categorized Income
(equivalently, an indicator sum over all rows), likewise for Expense, and net
savings is their difference; the empty set yields (0, 0, 0), and one Income
row of 100 with one Expense row of 40 yields (100, 40, 60). -/
theorem C4_summarize_totals :
    (∀ txs : List Tx, summarize txs
      = ((txs.map (fun t => if t.category = incomeStr then t.amount else 0)).sum,
         (txs.map (fun t => if t.category = expenseStr then t.amount else 0)).sum,
         total_income txs - total_expense txs)) ∧
    summarize [] = (0, 0, 0) ∧
    summarize [⟨⟨1, 3, 2024⟩, 100, incomeStr, []⟩, ⟨⟨5, 3, 2024⟩, 40, expenseStr, []⟩]
      = (100, 40, 60) := by
  refine ⟨fun txs => ?_, ?_, ?_⟩
  · unfold summarize total_income total_expense
    rw [sumByCategory_indicator, sumByCategory_indicator]
  · norm_num [summarize, total_income, total_expense, sumByCategory]
  · have he : (incomeStr == incomeStr) = true := by decide
    have he' : (expenseStr == expenseStr) = true := by decide
    have hne : (expenseStr == incomeStr) = false := by decide
    have hne' : (incomeStr == expenseStr) = false := by decide
    norm_num [summarize, total_income, total_expense, sumByCategory,
      List.filter_cons, he, he', hne, hne']

theorem filter_isExpenseR_idem (txs : List RetTx) :
    (txs.filter isExpenseR).filter isExpenseR = txs.filter isExpenseR := by
  rw [List.filter_filter]
  exact List.filter_congr (fun t _ => Bool.and_self (isExpenseR t))

/-- The description shared by the example rows of the breakdown claim. -/
def groceriesStr : Str := ['G', 'r', 'o', 'c', 'e', 'r', 'i', 'e', 's']

/-- Example retrieved set for the breakdown claim: an Income row and two
Expense rows of 10 and 15 sharing a present description, plus an Expense row
whose description read back as NaN. -/
def exC5 : List RetTx :=
  [⟨⟨1, 3, 2024⟩, 100, some incomeStr, some groceriesStr⟩,
   ⟨⟨5, 3, 2024⟩, 10, some expenseStr, some groceriesStr⟩,
   ⟨⟨6, 3, 2024⟩, 15, some expenseStr, some groceriesStr⟩,
   ⟨⟨7, 3, 2024⟩, 7, some expenseStr, none⟩]

/-- A retrieved set holding a single Expense row whose description was blank
in the file and read back as NaN. -/
def exC5na : List RetTx := [⟨⟨5, 3, 2024⟩, 10, some expenseStr, none⟩]

/-- Counterexample to the claimed mapping: on a retrieved set with one
Expense row whose description read back as NaN, the breakdown is empty - the
groupby dropped the NaN key - although an Expense row is present, so the
mapping does not sum over exactly the Expense rows. -/
theorem C5_counterexample :
    breakdownKeysR exC5na = [] ∧ exC5na.filter isExpenseR ≠ [] := by
  constructor
  · decide
  · decide

/-- C5 (amended): CategoryBreakdown maps each present description to the sum
of amounts over exactly the Expense rows bearing it: a description is a key
precisely when some Expense row carries it as a present cell; an Expense row
whose description read back as NaN is dropped by the groupby and contributes
no entry; Income rows contribute to no entry; the mapping is unchanged by
discarding the non-Expense rows; an input with no Expense rows yields the
empty mapping rather than an error; and two Expense rows described alike with
amounts 10 and 15 form the single entry of total 25, untouched by an Income
row of the same description or by a NaN-described Expense row. -/
theorem C5_breakdown :
    (∀ (txs : List RetTx) (dsc : Str),
      dsc ∈ breakdownKeysR txs ↔ ∃ t ∈ txs, isExpenseR t = true ∧ t.description = some dsc) ∧
    (∀ (txs : List RetTx) (dsc : Str),
      breakdownKeysR (txs.filter isExpenseR) = breakdownKeysR txs ∧
      breakdownValueR (txs.filter isExpenseR) dsc = breakdownValueR txs dsc) ∧
    (∀ txs : List RetTx, (∀ t ∈ txs, isExpenseR t = false) → breakdownKeysR txs = []) ∧
    breakdownKeysR exC5 = [groceriesStr] ∧
    breakdownValueR exC5 groceriesStr = 25 := by
  refine ⟨?_, ?_, ?_, ?_, ?_⟩
  · intro txs dsc
    unfold breakdownKeysR
    rw [List.mem_dedup]
    simp only [List.mem_filterMap, List.mem_filter]
    constructor
    · rintro ⟨t, ⟨ht, hexp⟩, hd⟩
      exact ⟨t, ht, hexp, hd⟩
    · rintro ⟨t, ht, hexp, hd⟩
      exact ⟨t, ⟨ht, hexp⟩, hd⟩
  · intro txs dsc
    constructor
    · unfold breakdownKeysR
      rw [filter_isExpenseR_idem]
    · unfold breakdownValueR
      apply congrArg List.sum
      apply congrArg (List.map RetTx.amount)
      rw [List.filter_filter]
      exact List.filter_congr (fun t _ => by cases h : isExpenseR t <;> simp [h])
  · intro txs h
    unfold breakdownKeysR
    have hnil : txs.filter isExpenseR = [] := by
      rw [List.filter_eq_nil_iff]
      intro t ht
      simp [h t ht]
    rw [hnil]
    rfl
  · decide
  · have hfilter : exC5.filter (fun t => isExpenseR t && t.description == some groceriesStr)
        = [⟨⟨5, 3, 2024⟩, 10, some expenseStr, some groceriesStr⟩,
           ⟨⟨6, 3, 2024⟩, 15, some expenseStr, some groceriesStr⟩] := by decide
    unfold breakdownValueR
    rw [hfilter]
    norm_num

/-- The spec's words for the TimeSeries axis, stated for comparison with the
code's axis: the distinct dates present in the input, in sorted order. -/
def insertSorted (d : Date) : List Date → List Date
  | [] => [d]
  | x :: xs => if dateLe d x then d :: x :: xs else x :: insertSorted d xs

/-- Sorted deduplicated date set of an input, per the spec's description. -/
def distinctSortedDates (txs : List Tx) : List Date :=
  ((txs.map Tx.date).dedup).foldr insertSorted []

/-- Example input for the time-series claim: two rows whose dates arrive out
of order, so the frame's index is not sorted. -/
def exC7 : List Tx :=
  [⟨⟨2, 1, 2024⟩, 5, incomeStr, []⟩, ⟨⟨1, 1, 2024⟩, 3, expenseStr, []⟩]

/-- Counterexample to the claimed axis: on two rows dated 02.01.2024 then
01.01.2024, the axis `plot_transactions` uses (the frame's index: the row
dates in row order) differs from the distinct sorted date set the claim
names. -/
theorem C7_counterexample : dateAxis exC7 ≠ distinctSortedDates exC7 := by decide

/-- C7 (amended): for a non-empty input, `plot_transactions` produces the two
series aligned on the frame's index - the per-row date sequence in input
order, duplicates retained and unsorted - where the entry at each position is
the total amount of that side on that position's date, and a date on which a
side has no rows carries zero; an empty input yields no series at all. -/
theorem C7_series_amended (txs : List Tx) (h : txs ≠ []) :
    plot_series txs = some (incomeSeries txs, expenseSeries txs) ∧
    incomeSeries txs = txs.map (fun t => dailySum txs incomeStr t.date) ∧
    expenseSeries txs = txs.map (fun t => dailySum txs expenseStr t.date) ∧
    (incomeSeries txs).length = txs.length ∧
    (expenseSeries txs).length = txs.length ∧
    (∀ d : Date, (∀ t ∈ txs, t.category = incomeStr → t.date ≠ d) →
      dailySum txs incomeStr d = 0) ∧
    (∀ d : Date, (∀ t ∈ txs, t.category = expenseStr → t.date ≠ d) →
      dailySum txs expenseStr d = 0) := by
  have hzero : ∀ (cat : Str) (d : Date), (∀ t ∈ txs, t.category = cat → t.date ≠ d) →
      dailySum txs cat d = 0 := by
    intro cat d hd
    unfold dailySum
    have hnil : txs.filter (fun t => t.category == cat && t.date == d) = [] := by
      rw [List.filter_eq_nil_iff]
      intro t ht hcontra
      rw [Bool.and_eq_true, beq_iff_eq, beq_iff_eq] at hcontra
      exact hd t ht hcontra.1 hcontra.2
    rw [hnil]
    rfl
  refine ⟨?_, ?_, ?_, ?_, ?_, hzero incomeStr, hzero expenseStr⟩
  · unfold plot_series
    rw [if_neg (by simpa using h)]
  · unfold incomeSeries dateAxis
    rw [List.map_map]
    rfl
  · unfold expenseSeries dateAxis
    rw [List.map_map]
    rfl
  · unfold incomeSeries dateAxis
    rw [List.length_map, List.length_map]
  · unfold expenseSeries dateAxis
    rw [List.length_map, List.length_map]

/-- Witness for the amended time-series property at the concrete two-row
input. -/
theorem C7_series_amended_witness :
    exC7 ≠ [] ∧ plot_series exC7 = some (incomeSeries exC7, expenseSeries exC7) :=
  ⟨by decide, (C7_series_amended exC7 (by decide)).1⟩

/-- A frame as `get_transactions` returns it (positional index, date column
in place) holding one row: the concrete input on which `plot_transactions`
mutates its argument. -/
def exC8 : Frame := ⟨false, [⟨⟨1, 1, 2024⟩, 1, incomeStr, []⟩]⟩

/-- Counterexample to the claimed absence of input mutation: on a non-empty
frame, `plot_transactions` sets the date index in place (lines 65-66), so the
object the caller passed is no longer identical to what it was before the
call. -/
theorem C8_counterexample : plot_transactions_frame exC8 ≠ exC8 := by decide

/-- C8 (amended): Summarize and CategoryBreakdown leave their input frame
unchanged, and all three report functions are deterministic; TimeSeries
(`plot_transactions`) preserves the input's rows but sets the frame's date
index in place - the caller-visible object changes on a first call with
non-empty rows (which is why `main` passes copies), while an empty frame is
returned untouched and a repeated call causes no further change. -/
theorem C8_frame_effects (df : Frame) :
    plot_expense_analysis_frame df = df ∧
    summarize_frame df = df ∧
    (plot_transactions_frame df).rows = df.rows ∧
    (df.rows = [] → plot_transactions_frame df = df) ∧
    plot_transactions_frame (plot_transactions_frame df) = plot_transactions_frame df := by
  refine ⟨rfl, rfl, ?_, ?_, ?_⟩
  · unfold plot_transactions_frame
    split <;> rfl
  · intro h
    unfold plot_transactions_frame
    rw [if_pos (by simp [h])]
  · rcases df with ⟨b, rows⟩
    unfold plot_transactions_frame
    by_cases h : rows.isEmpty <;> simp [h]

end MoneyTracker
